import Mathlib

/-!
# Verification of the session-sync / slash-command / theme front-end logic

Shallow embedding of:
* `useSessionSync` (event-driven tab-state reconciliation): path normalization,
  tab matching by session id with project-path fallback, and the
  started/stopped transition policy;
* `useCustomSlashCommands.loadCommands` error handling and
  `useSlashCommandMenu.handleKeyDown` arrow-key navigation;
* `ThemeContext.toggleTheme`.

TypeScript strings stay `String`; optional fields become `Option`;
JavaScript truthiness on strings (where `""` is falsy) is modelled explicitly.
Event processing is modelled as a pure function from the current tab snapshot
and the event to the list of registry mutation calls and the list of
diagnostics it issues.
-/

/-- A running agent session attached to a tab: identifier plus project path. -/
structure Session where
  id : String
  project_path : String
deriving DecidableEq

/-- A UI tab as read from the Tab Registry: identifier, execution state
(a string such as `"idle"` or `"streaming"`), optional associated session,
optional directly-assigned project path. -/
structure Tab where
  id : String
  state : String
  session : Option Session
  projectPath : Option String
deriving DecidableEq

/-- Lifecycle status carried by a `claude-session-state` event. -/
inductive SessionStatus
  | started
  | stopped
deriving DecidableEq

/-- The `claude-session-state` event payload. -/
structure SessionEvent where
  session_id : String
  status : SessionStatus
  success : Option Bool
  error : Option String
  project_path : Option String
  model : Option String
  pid : Option Int
  run_id : Option Int
deriving DecidableEq

/-- One call to the Tab Registry mutation
`updateTabStreamingStatus(tabId, isStreaming, sessionId)`. -/
structure Mutation where
  tabId : String
  isStreaming : Bool
  sessionId : Option String
deriving DecidableEq

/-- Diagnostics logged by the reconciler. -/
inductive Diag
  | warnNoTab (sessionId : String)
  | errorSessionStopped (sessionId : String) (error : String)
deriving DecidableEq

/-- `p.replace(/\\/g, '/')`: every backslash becomes a forward slash. -/
def replaceBackslashes (s : String) : String :=
  ⟨s.data.map (fun c => if c = '\\' then '/' else c)⟩

/-- `.toLowerCase()` on the ASCII range (the only range the paths use). -/
def toLowerAscii (s : String) : String :=
  ⟨s.data.map Char.toLower⟩

/-- `.replace(/\/+$/, '')`: drop the trailing run of forward slashes. -/
def stripTrailingSlashes (s : String) : String :=
  ⟨(s.data.reverse.dropWhile (· = '/')).reverse⟩

/-- `normalizePath` from `useSessionSync`:
`p?.replace(/\\/g, '/').toLowerCase().replace(/\/+$/, '') || ''`
(the trailing `|| ''` is the identity here since the result is already a
string, possibly empty). -/
def normalizePath (p : String) : String :=
  stripTrailingSlashes (toLowerAscii (replaceBackslashes p))

/-- `t.session?.id === session_id`: `undefined === sid` is false. -/
def sessionIdMatches (sid : String) (t : Tab) : Bool :=
  match t.session with
  | some s => s.id = sid
  | none => false

/-- `t.projectPath || t.session?.project_path`: JS `||` falls through on the
empty string as well as on `undefined`. -/
def tabProjectPath (t : Tab) : Option String :=
  match t.projectPath with
  | some p => if p = "" then t.session.map (·.project_path) else some p
  | none => t.session.map (·.project_path)

/-- `tabProjectPath && normalizePath(tabProjectPath) === normalizedEventPath`:
an absent or empty fallback path never matches. -/
def pathMatches (normalizedEventPath : String) (t : Tab) : Bool :=
  match tabProjectPath t with
  | some p => if p = "" then false else normalizePath p = normalizedEventPath
  | none => false

/-- The matching strategy of `useSessionSync`: first an exact `session_id`
match, then — only when that fails and the event carries a non-empty
`project_path` — a normalized-path match. -/
def findMatchingTab (tabs : List Tab) (e : SessionEvent) : Option Tab :=
  match tabs.find? (sessionIdMatches e.session_id) with
  | some t => some t
  | none =>
    match e.project_path with
    | some pp =>
      if pp = "" then none
      else tabs.find? (pathMatches (normalizePath pp))
    | none => none

/-- The body of the `claude-session-state` listener: given the current tab
snapshot and one event, the registry mutation calls and diagnostics issued. -/
def processEvent (tabs : List Tab) (e : SessionEvent) : List Mutation × List Diag :=
  match findMatchingTab tabs e with
  | some tab =>
    match e.status with
    | SessionStatus.started =>
      if tab.state ≠ "streaming" then
        ([⟨tab.id, true, some e.session_id⟩], [])
      else
        ([], [])
    | SessionStatus.stopped =>
      if tab.state = "streaming" then
        ([⟨tab.id, false, none⟩],
          match e.error with
          | some err => if err = "" then [] else [Diag.errorSessionStopped e.session_id err]
          | none => [])
      else
        ([], [])
  | none => ([], [Diag.warnNoTab e.session_id])

/-- Modelled from the spec: the Tab Registry write interface
`setStreaming(tabId, isStreaming, sessionId)` (the `useTabs` hook is not in
the excerpt) "atomically updates a tab's execution state and session
association": the tab with the given id gets state `"streaming"` or `"idle"`
according to `isStreaming`, and its session association is set to the given
session id (keeping a known project path) or cleared to null. -/
def setStreaming (tabs : List Tab) (m : Mutation) : List Tab :=
  tabs.map fun t =>
    if t.id = m.tabId then
      { t with
        state := if m.isStreaming then "streaming" else "idle",
        session :=
          match m.sessionId with
          | some sid =>
            some ⟨sid, ((t.session.map (·.project_path)).getD (t.projectPath.getD ""))⟩
          | none => none }
    else t

/-- Apply a batch of registry mutation calls in order. -/
def applyMutations (tabs : List Tab) (ms : List Mutation) : List Tab :=
  ms.foldl setStreaming tabs

/-- Execution engine selector used by the slash-command hooks. -/
inductive ExecutionEngine
  | claude
  | gemini
  | codex
deriving DecidableEq

/-- A custom command descriptor as returned by the backend
(`CustomSlashCommandResponse`). -/
structure CustomSlashCommandResponse where
  name : String
  path : String
  scope : String
  description : Option String
  argHint : Option String
  content : String
deriving DecidableEq

/-- A slash command as consumed by the menu (`SlashCommand`). -/
structure SlashCommand where
  name : String
  description : String
  source : String
  category : String
  supportsNonInteractive : Bool
  argHint : Option String
deriving DecidableEq

/-- `getBackendCommand` from `useCustomSlashCommands`. -/
def getBackendCommand (eng : ExecutionEngine) : String :=
  match eng with
  | ExecutionEngine.gemini => "list_gemini_custom_slash_commands"
  | _ => "list_custom_slash_commands"

/-- Outcome of the `invoke(backendCommand, ...)` call: a command list or an
error message (the message of the thrown value). -/
inductive InvokeResult
  | ok (commands : List CustomSlashCommandResponse)
  | err (message : String)
deriving DecidableEq

/-- The `(rawCommands, error)` state pair of `useCustomSlashCommands`. -/
structure LoadState where
  rawCommands : List CustomSlashCommandResponse
  error : Option String
deriving DecidableEq

/-- `sub.isPrefixOf l || sub occurs later in l`: helper for JS
`String.prototype.includes`. -/
def includesAux (sub : List Char) : List Char → Bool
  | [] => sub.isEmpty
  | c :: rest => List.isPrefixOf sub (c :: rest) || includesAux sub rest

/-- JS `s.includes(sub)`. -/
def strIncludes (s sub : String) : Bool :=
  includesAux sub.data s.data

/-- `errorMessage.includes('not found') || errorMessage.includes('Unknown command')`:
the heuristic that classifies a failure as an expected missing backend. -/
def isExpectedMissingBackend (msg : String) : Bool :=
  strIncludes msg "not found" || strIncludes msg "Unknown command"

/-- `loadCommands` from `useCustomSlashCommands`, as a function of the state
it starts from, the options, and the result of the `invoke` call. The early
returns (`!enabled`, `codex`) clear the command list and leave `error`
untouched; otherwise `error` is reset to null, then the invoke outcome is
handled: success stores the commands; a failure whose message names a missing
backend command is silently treated as empty; any other failure surfaces the
message and yields an empty list. -/
def loadCommands (enabled : Bool) (engine : ExecutionEngine)
    (res : InvokeResult) (prev : LoadState) : LoadState :=
  if !enabled then { prev with rawCommands := [] }
  else if engine = ExecutionEngine.codex then { prev with rawCommands := [] }
  else
    match res with
    | InvokeResult.ok cmds => { rawCommands := cmds, error := none }
    | InvokeResult.err msg =>
      if isExpectedMissingBackend msg then { rawCommands := [], error := none }
      else { rawCommands := [], error := some msg }

/-- The `customCommands` memo: convert backend descriptors to `SlashCommand`s
(JS `||` falls through on empty strings for `description` and `argHint`). -/
def toSlashCommands (raw : List CustomSlashCommandResponse) : List SlashCommand :=
  raw.map fun cmd =>
    { name := cmd.name
      description :=
        match cmd.description with
        | some d => if d = "" then "Custom command: " ++ cmd.name else d
        | none => "Custom command: " ++ cmd.name
      source := if cmd.scope = "project" then "project" else "user"
      category := "custom"
      supportsNonInteractive := true
      argHint :=
        match cmd.argHint with
        | some h => if h = "" then none else some h
        | none => none }

/-- Keys discriminated by `useSlashCommandMenu.handleKeyDown`. -/
inductive MenuKey
  | arrowUp
  | arrowDown
  | enter
  | tabKey
  | escape
  | other
deriving DecidableEq

/-- `isOpen = isSlashCommand && !isManuallyClose && filteredCommands.length > 0`. -/
def menuIsOpen (isSlashCommand isManuallyClose : Bool) (filteredLen : Nat) : Bool :=
  isSlashCommand && !isManuallyClose && decide (0 < filteredLen)

/-- The `selectedIndex` update performed by `handleKeyDown`: when the menu is
closed every key leaves the index unchanged; when open, ArrowUp moves to
`prev - 1` or wraps to `length - 1`, ArrowDown moves to `prev + 1` or wraps
to `0`; the other keys do not change the index. -/
def handleKeyDownIndex (isOpen : Bool) (filteredLen : Nat) (key : MenuKey)
    (prev : Nat) : Nat :=
  if !isOpen then prev
  else
    match key with
    | MenuKey.arrowUp => if prev > 0 then prev - 1 else filteredLen - 1
    | MenuKey.arrowDown => if prev < filteredLen - 1 then prev + 1 else 0
    | _ => prev

/-- The two-value theme domain of `ThemeContext`. -/
inductive Theme
  | light
  | dark
deriving DecidableEq

/-- `toggleTheme`: `prev === 'light' ? 'dark' : 'light'`. -/
def toggleTheme (prev : Theme) : Theme :=
  if prev = Theme.light then Theme.dark else Theme.light

/-! ## Helper lemmas about `findMatchingTab` and `processEvent` -/

lemma findMatchingTab_of_sessionMatch {tabs : List Tab} {e : SessionEvent} {t : Tab}
    (h : tabs.find? (sessionIdMatches e.session_id) = some t) :
    findMatchingTab tabs e = some t := by
  unfold findMatchingTab
  rw [h]

lemma findMatchingTab_mem {tabs : List Tab} {e : SessionEvent} {t : Tab}
    (h : findMatchingTab tabs e = some t) : t ∈ tabs := by
  unfold findMatchingTab at h
  cases hfind : tabs.find? (sessionIdMatches e.session_id) with
  | some t0 =>
    rw [hfind] at h
    have h2 : some t0 = some t := h
    exact (Option.some_inj.mp h2) ▸ List.mem_of_find?_eq_some hfind
  | none =>
    rw [hfind] at h
    cases hpp : e.project_path with
    | none =>
      rw [hpp] at h
      exact absurd h (by simp)
    | some pp =>
      rw [hpp] at h
      have h2 : (if pp = "" then none
          else tabs.find? (pathMatches (normalizePath pp))) = some t := h
      by_cases hem : pp = ""
      · rw [if_pos hem] at h2
        exact absurd h2 (by simp)
      · rw [if_neg hem] at h2
        exact List.mem_of_find?_eq_some h2

lemma processEvent_matched_started {tabs : List Tab} {e : SessionEvent} {tab : Tab}
    (hm : findMatchingTab tabs e = some tab) (hs : e.status = SessionStatus.started)
    (hns : tab.state ≠ "streaming") :
    processEvent tabs e = ([⟨tab.id, true, some e.session_id⟩], []) := by
  unfold processEvent
  rw [hm, hs]
  exact if_pos hns

lemma processEvent_matched_started_noop {tabs : List Tab} {e : SessionEvent} {tab : Tab}
    (hm : findMatchingTab tabs e = some tab) (hs : e.status = SessionStatus.started)
    (hstr : tab.state = "streaming") :
    processEvent tabs e = ([], []) := by
  unfold processEvent
  rw [hm, hs]
  exact if_neg (by simp [hstr])

lemma processEvent_matched_stopped_streaming {tabs : List Tab} {e : SessionEvent} {tab : Tab}
    (hm : findMatchingTab tabs e = some tab) (hs : e.status = SessionStatus.stopped)
    (hstr : tab.state = "streaming") :
    processEvent tabs e =
      ([⟨tab.id, false, none⟩],
        match e.error with
        | some err => if err = "" then [] else [Diag.errorSessionStopped e.session_id err]
        | none => []) := by
  unfold processEvent
  rw [hm, hs]
  exact if_pos hstr

lemma processEvent_matched_stopped_noop {tabs : List Tab} {e : SessionEvent} {tab : Tab}
    (hm : findMatchingTab tabs e = some tab) (hs : e.status = SessionStatus.stopped)
    (hns : tab.state ≠ "streaming") :
    processEvent tabs e = ([], []) := by
  unfold processEvent
  rw [hm, hs]
  exact if_neg (by simp [hns])

lemma processEvent_unmatched {tabs : List Tab} {e : SessionEvent}
    (hm : findMatchingTab tabs e = none) :
    processEvent tabs e = ([], [Diag.warnNoTab e.session_id]) := by
  unfold processEvent
  rw [hm]

/-- The effect of `setStreaming` with `isStreaming = true` on one tab. -/
def startTab (sid : String) (t : Tab) : Tab :=
  { t with
    state := "streaming",
    session := some ⟨sid, ((t.session.map (·.project_path)).getD (t.projectPath.getD ""))⟩ }

lemma setStreaming_start_eq (tabs : List Tab) (tid sid : String) :
    setStreaming tabs ⟨tid, true, some sid⟩ =
      tabs.map (fun t => if t.id = tid then startTab sid t else t) := by
  simp only [setStreaming, startTab, if_true]

lemma startTab_state (sid : String) (t : Tab) : (startTab sid t).state = "streaming" := rfl

lemma startTab_matches (sid : String) (t : Tab) :
    sessionIdMatches sid (startTab sid t) = true := by
  simp [startTab, sessionIdMatches]

lemma find_after_start_of_sessionMatch (sid : String) :
    ∀ (tabs : List Tab) (tab : Tab),
      tabs.find? (sessionIdMatches sid) = some tab →
      ∃ t', (tabs.map (fun t => if t.id = tab.id then startTab sid t else t)).find?
              (sessionIdMatches sid) = some t' ∧ t'.state = "streaming" := by
  intro tabs
  induction tabs with
  | nil => intro tab h; simp at h
  | cons t ts ih =>
    intro tab h
    by_cases hm : sessionIdMatches sid t = true
    · rw [List.find?_cons_of_pos _ hm] at h
      obtain rfl : t = tab := Option.some_inj.mp h
      rw [List.map_cons, if_pos rfl, List.find?_cons_of_pos _ (startTab_matches sid t)]
      exact ⟨startTab sid t, rfl, startTab_state sid t⟩
    · rw [List.find?_cons_of_neg _ hm] at h
      rw [List.map_cons]
      by_cases hid : t.id = tab.id
      · rw [if_pos hid, List.find?_cons_of_pos _ (startTab_matches sid t)]
        exact ⟨startTab sid t, rfl, startTab_state sid t⟩
      · rw [if_neg hid, List.find?_cons_of_neg _ hm]
        exact ih tab h

lemma find_after_start_of_no_sessionMatch (sid tid : String) :
    ∀ (tabs : List Tab),
      (∀ t ∈ tabs, ¬ sessionIdMatches sid t = true) →
      (∃ t ∈ tabs, t.id = tid) →
      ∃ t', (tabs.map (fun t => if t.id = tid then startTab sid t else t)).find?
              (sessionIdMatches sid) = some t' ∧ t'.state = "streaming" := by
  intro tabs
  induction tabs with
  | nil => intro _ h2; simp at h2
  | cons t ts ih =>
    intro h1 h2
    rw [List.map_cons]
    by_cases hid : t.id = tid
    · rw [if_pos hid, List.find?_cons_of_pos _ (startTab_matches sid t)]
      exact ⟨startTab sid t, rfl, startTab_state sid t⟩
    · rw [if_neg hid, List.find?_cons_of_neg _ (h1 t (by simp))]
      refine ih (fun u hu => h1 u (by simp [hu])) ?_
      obtain ⟨u, hu, hid2⟩ := h2
      rcases List.mem_cons.mp hu with rfl | hu2
      · exact absurd hid2 hid
      · exact ⟨u, hu2, hid2⟩

/-! ## Claim theorems: session reconciliation -/

/-- C1: for every lifecycle event with status `started` that matches some tab
(by session id, or by normalized project path when no session-id match
exists) whose state is not `streaming`, processing the event issues exactly
one registry mutation, setting that tab to streaming and associating the
event's `session_id` with it. -/
theorem started_event_sets_tab_streaming (tabs : List Tab) (e : SessionEvent) (tab : Tab)
    (hm : findMatchingTab tabs e = some tab) (hs : e.status = SessionStatus.started)
    (hns : tab.state ≠ "streaming") :
    (processEvent tabs e).1 = [⟨tab.id, true, some e.session_id⟩] := by
  rw [processEvent_matched_started hm hs hns]

/-- C1 witness: a concrete idle tab matched by session id. -/
theorem started_event_sets_tab_streaming_witness :
    (processEvent [⟨"t1", "idle", some ⟨"s1", "/repo/app"⟩, none⟩]
        ⟨"s1", SessionStatus.started, none, none, none, none, none, none⟩).1
      = [⟨"t1", true, some "s1"⟩] :=
  started_event_sets_tab_streaming _ _ ⟨"t1", "idle", some ⟨"s1", "/repo/app"⟩, none⟩
    (by decide) rfl (by decide)

/-- C2: for every `stopped` event that matches a tab: a streaming tab gets
exactly the mutation setting it to idle with a null session id; a
non-streaming tab gets no mutation at all. -/
theorem stopped_event_transitions (tabs : List Tab) (e : SessionEvent) (tab : Tab)
    (hm : findMatchingTab tabs e = some tab) (hs : e.status = SessionStatus.stopped) :
    (tab.state = "streaming" → (processEvent tabs e).1 = [⟨tab.id, false, none⟩]) ∧
    (tab.state ≠ "streaming" → (processEvent tabs e).1 = []) := by
  constructor
  · intro hstr
    rw [processEvent_matched_stopped_streaming hm hs hstr]
  · intro hns
    rw [processEvent_matched_stopped_noop hm hs hns]

/-- C2 witness: a streaming tab is stopped; an idle tab is a no-op. -/
theorem stopped_event_transitions_witness :
    (processEvent [⟨"t1", "streaming", some ⟨"s1", "/repo/app"⟩, none⟩]
        ⟨"s1", SessionStatus.stopped, none, none, none, none, none, none⟩).1
      = [⟨"t1", false, none⟩] :=
  (stopped_event_transitions _ _ ⟨"t1", "streaming", some ⟨"s1", "/repo/app"⟩, none⟩
    (by decide) rfl).1 rfl

/-- C3: matching runs in a fixed fallback order — a session-id match wins;
only when it fails and the event carries a non-empty `project_path` is the
normalized-path match consulted; and an event matching no tab yields zero
mutations and exactly one warning naming the unmatched session id. -/
theorem matching_fallback_order (tabs : List Tab) (e : SessionEvent) :
    (∀ t, tabs.find? (sessionIdMatches e.session_id) = some t →
      findMatchingTab tabs e = some t) ∧
    (tabs.find? (sessionIdMatches e.session_id) = none →
      ∀ pp, e.project_path = some pp → pp ≠ "" →
        findMatchingTab tabs e = tabs.find? (pathMatches (normalizePath pp))) ∧
    (findMatchingTab tabs e = none →
      processEvent tabs e = ([], [Diag.warnNoTab e.session_id])) := by
  refine ⟨?_, ?_, ?_⟩
  · intro t h
    exact findMatchingTab_of_sessionMatch h
  · intro hnone pp hpp hne
    unfold findMatchingTab
    rw [hnone, hpp]
    exact if_neg hne
  · intro hm
    exact processEvent_unmatched hm

/-- C3 witness: an event with a fresh session id and a path matching no tab
produces no mutation and a single warning. -/
theorem matching_fallback_order_witness :
    processEvent [⟨"t1", "idle", some ⟨"s1", "/repo/app"⟩, none⟩]
        ⟨"s9", SessionStatus.started, none, none, some "/other", none, none, none⟩
      = ([], [Diag.warnNoTab "s9"]) :=
  (matching_fallback_order [⟨"t1", "idle", some ⟨"s1", "/repo/app"⟩, none⟩]
      ⟨"s9", SessionStatus.started, none, none, some "/other", none, none, none⟩).2.2
    (by decide)

/-- C4: `normalizePath` converts backslashes to forward slashes, lower-cases,
and strips trailing separators, so `C:\Users\X\Proj`, `c:/Users/x/proj/` and
`C:/USERS/X/PROJ` all normalize to the same string. -/
theorem normalizePath_variant_paths_equal :
    normalizePath "C:\\Users\\X\\Proj" = "c:/users/x/proj" ∧
    normalizePath "c:/Users/x/proj/" = "c:/users/x/proj" ∧
    normalizePath "C:/USERS/X/PROJ" = "c:/users/x/proj" := by
  decide

/-- C5: started-event handling is idempotent — after the registry applies the
mutation issued by the first delivery, delivering the same event again issues
no further mutation. -/
theorem started_event_idempotent (tabs : List Tab) (e : SessionEvent) (tab : Tab)
    (hm : findMatchingTab tabs e = some tab) (hs : e.status = SessionStatus.started)
    (hns : tab.state ≠ "streaming") :
    (processEvent (applyMutations tabs (processEvent tabs e).1) e).1 = [] := by
  rw [processEvent_matched_started hm hs hns]
  have happ : applyMutations tabs [⟨tab.id, true, some e.session_id⟩]
      = tabs.map (fun t => if t.id = tab.id then startTab e.session_id t else t) := by
    show setStreaming tabs ⟨tab.id, true, some e.session_id⟩ = _
    exact setStreaming_start_eq tabs tab.id e.session_id
  rw [happ]
  have hex : ∃ t', (tabs.map fun t =>
        if t.id = tab.id then startTab e.session_id t else t).find?
          (sessionIdMatches e.session_id) = some t' ∧ t'.state = "streaming" := by
    cases hfind : tabs.find? (sessionIdMatches e.session_id) with
    | some t0 =>
      have : findMatchingTab tabs e = some t0 := findMatchingTab_of_sessionMatch hfind
      have ht0 : t0 = tab := Option.some_inj.mp (this ▸ hm)
      exact find_after_start_of_sessionMatch e.session_id tabs tab (ht0 ▸ hfind)
    | none =>
      refine find_after_start_of_no_sessionMatch e.session_id tab.id tabs ?_
        ⟨tab, findMatchingTab_mem hm, rfl⟩
      exact List.find?_eq_none.mp hfind
  obtain ⟨t', hfind2, hstreaming⟩ := hex
  have hmatch2 : findMatchingTab (tabs.map fun t =>
      if t.id = tab.id then startTab e.session_id t else t) e = some t' :=
    findMatchingTab_of_sessionMatch hfind2
  rw [processEvent_matched_started_noop hmatch2 hs hstreaming]

/-- C5 witness: a tab matched only by project path; re-delivering the same
started event after the first mutation is applied produces none. -/
theorem started_event_idempotent_witness :
    (processEvent
        (applyMutations [⟨"t2", "idle", none, some "/repo/app"⟩]
          (processEvent [⟨"t2", "idle", none, some "/repo/app"⟩]
            ⟨"sNew", SessionStatus.started, none, none, some "/repo/app",
              none, none, none⟩).1)
        ⟨"sNew", SessionStatus.started, none, none, some "/repo/app",
          none, none, none⟩).1 = [] :=
  started_event_idempotent _ _ ⟨"t2", "idle", none, some "/repo/app"⟩
    (by decide) rfl (by decide)

/-- C6 counterexample: a `stopped` event with error `"oom"` matches an idle
tab, yet no diagnostic (and no mutation) is issued — the error log sits
inside the streaming-only branch, so the claim as stated fails. -/
theorem stopped_error_diag_counterexample :
    findMatchingTab [⟨"t1", "idle", some ⟨"s1", "/repo/app"⟩, none⟩]
        ⟨"s1", SessionStatus.stopped, none, some "oom", none, none, none, none⟩
      = some ⟨"t1", "idle", some ⟨"s1", "/repo/app"⟩, none⟩ ∧
    processEvent [⟨"t1", "idle", some ⟨"s1", "/repo/app"⟩, none⟩]
        ⟨"s1", SessionStatus.stopped, none, some "oom", none, none, none, none⟩
      = ([], []) := by
  decide

/-- C6 (amended): for every `stopped` event that matches a streaming tab and
carries a non-empty error field, a diagnostic with the session id and error
text is emitted, and the error does not alter the transition — the tab still
gets the idle mutation. -/
theorem stopped_error_diag_amended (tabs : List Tab) (e : SessionEvent) (tab : Tab)
    (err : String) (hm : findMatchingTab tabs e = some tab)
    (hs : e.status = SessionStatus.stopped) (hstr : tab.state = "streaming")
    (herr : e.error = some err) (hne : err ≠ "") :
    (processEvent tabs e).2 = [Diag.errorSessionStopped e.session_id err] ∧
    (processEvent tabs e).1 = [⟨tab.id, false, none⟩] := by
  rw [processEvent_matched_stopped_streaming hm hs hstr, herr]
  simp [hne]

/-- C6 witness: a streaming tab stopped with error `"oom"` — one error
diagnostic citing the session id and the error, one idle mutation. -/
theorem stopped_error_diag_amended_witness :
    (processEvent [⟨"t1", "streaming", some ⟨"s1", "/repo/app"⟩, none⟩]
        ⟨"s1", SessionStatus.stopped, none, some "oom", none, none, none, none⟩).2
      = [Diag.errorSessionStopped "s1" "oom"] :=
  (stopped_error_diag_amended _ _ ⟨"t1", "streaming", some ⟨"s1", "/repo/app"⟩, none⟩
    "oom" (by decide) rfl rfl rfl (by decide)).1

/-- C7: processing a single event issues at most one registry mutation, and a
`stopped` event on a tab that is not streaming issues none. -/
theorem at_most_one_mutation_per_event (tabs : List Tab) (e : SessionEvent) :
    (processEvent tabs e).1.length ≤ 1 ∧
    (∀ tab, findMatchingTab tabs e = some tab → e.status = SessionStatus.stopped →
      tab.state ≠ "streaming" → (processEvent tabs e).1 = []) := by
  constructor
  · cases hm : findMatchingTab tabs e with
    | none => rw [processEvent_unmatched hm]; simp
    | some tab =>
      cases hs : e.status with
      | started =>
        by_cases hstate : tab.state = "streaming"
        · rw [processEvent_matched_started_noop hm hs hstate]; simp
        · rw [processEvent_matched_started hm hs hstate]; simp
      | stopped =>
        by_cases hstate : tab.state = "streaming"
        · rw [processEvent_matched_stopped_streaming hm hs hstate]; simp
        · rw [processEvent_matched_stopped_noop hm hs hstate]; simp
  · intro tab hm hs hstate
    rw [processEvent_matched_stopped_noop hm hs hstate]

/-- C7 witness: a redundant stop on an already-idle tab is a no-op. -/
theorem at_most_one_mutation_per_event_witness :
    (processEvent [⟨"t1", "idle", some ⟨"s1", "/repo/app"⟩, none⟩]
        ⟨"s1", SessionStatus.stopped, none, none, none, none, none, none⟩).1 = [] :=
  (at_most_one_mutation_per_event [⟨"t1", "idle", some ⟨"s1", "/repo/app"⟩, none⟩]
      ⟨"s1", SessionStatus.stopped, none, none, none, none, none, none⟩).2
    ⟨"t1", "idle", some ⟨"s1", "/repo/app"⟩, none⟩ (by decide) rfl (by decide)

/-! ## Claim theorems: custom slash commands, menu keys, theme -/

/-- C8: a custom-command retrieval failure whose message contains
`not found` or `Unknown command` is treated as an expected empty result
(empty list, no surfaced error); any other failure surfaces the message and
also yields an empty list. -/
theorem custom_commands_error_handling (msg : String) (prev : LoadState) :
    (isExpectedMissingBackend msg = true →
      loadCommands true ExecutionEngine.claude (InvokeResult.err msg) prev
        = ⟨[], none⟩) ∧
    (isExpectedMissingBackend msg = false →
      loadCommands true ExecutionEngine.claude (InvokeResult.err msg) prev
        = ⟨[], some msg⟩) ∧
    toSlashCommands
      (loadCommands true ExecutionEngine.claude (InvokeResult.err msg) prev).rawCommands
      = [] := by
  refine ⟨fun h => ?_, fun h => ?_, ?_⟩
  · simp [loadCommands, h]
  · simp [loadCommands, h]
  · by_cases h : isExpectedMissingBackend msg <;>
      simp [loadCommands, h, toSlashCommands]

/-- C8 witness: a `not found` message is silent; `boom` surfaces. -/
theorem custom_commands_error_handling_witness :
    loadCommands true ExecutionEngine.claude
        (InvokeResult.err "Command list_custom_slash_commands not found")
        ⟨[], some "old"⟩ = ⟨[], none⟩ ∧
    loadCommands true ExecutionEngine.claude (InvokeResult.err "boom")
        ⟨[], none⟩ = ⟨[], some "boom"⟩ :=
  ⟨(custom_commands_error_handling _ _).1 (by decide),
   (custom_commands_error_handling _ _).2.1 (by decide)⟩

/-- C9: when the menu is open (so the filtered list is non-empty) and the
selected index is in range, ArrowUp and ArrowDown keep it in
`[0, length - 1]` and wrap: ArrowUp at 0 goes to the last index, ArrowDown at
the last index goes to 0. -/
theorem arrow_keys_wrap_in_range (isSlashCommand isManuallyClose : Bool)
    (len prev : Nat) (hopen : menuIsOpen isSlashCommand isManuallyClose len = true)
    (hprev : prev < len) :
    handleKeyDownIndex (menuIsOpen isSlashCommand isManuallyClose len) len
        MenuKey.arrowUp prev < len ∧
    handleKeyDownIndex (menuIsOpen isSlashCommand isManuallyClose len) len
        MenuKey.arrowDown prev < len ∧
    handleKeyDownIndex (menuIsOpen isSlashCommand isManuallyClose len) len
        MenuKey.arrowUp 0 = len - 1 ∧
    handleKeyDownIndex (menuIsOpen isSlashCommand isManuallyClose len) len
        MenuKey.arrowDown (len - 1) = 0 := by
  have hlen : 0 < len := by
    unfold menuIsOpen at hopen
    have h2 := (Bool.and_eq_true _ _).mp hopen
    exact of_decide_eq_true h2.2
  rw [hopen]
  refine ⟨?_, ?_, ?_, ?_⟩
  · show (if prev > 0 then prev - 1 else len - 1) < len
    split <;> omega
  · show (if prev < len - 1 then prev + 1 else 0) < len
    split <;> omega
  · show (if 0 > 0 then 0 - 1 else len - 1) = len - 1
    split <;> omega
  · show (if len - 1 < len - 1 then len - 1 + 1 else 0) = 0
    split <;> omega

/-- C9 witness: a three-entry open menu at index 1, and the two wrap cases. -/
theorem arrow_keys_wrap_in_range_witness :
    handleKeyDownIndex (menuIsOpen true false 3) 3 MenuKey.arrowUp 0 = 2 ∧
    handleKeyDownIndex (menuIsOpen true false 3) 3 MenuKey.arrowDown 2 = 0 :=
  ⟨(arrow_keys_wrap_in_range true false 3 1 (by decide) (by decide)).2.2.1,
   (arrow_keys_wrap_in_range true false 3 1 (by decide) (by decide)).2.2.2⟩

/-- C10: the theme toggle maps light to dark and dark to light, so applying
it twice returns either theme to its original value — an involution on the
two-value domain. -/
theorem toggleTheme_involution :
    toggleTheme Theme.light = Theme.dark ∧
    toggleTheme Theme.dark = Theme.light ∧
    toggleTheme (toggleTheme Theme.light) = Theme.light ∧
    toggleTheme (toggleTheme Theme.dark) = Theme.dark := by
  decide
